import Mathlib

/-! SN32 PAL low level driver (GPIOv3): line codec and group-mode programming.

Shallow embedding of `os/hal/ports/SN32/LLD/GPIO/hal_pal_lld.h` and
`os/hal/ports/SN32/LLD/GPIO/hal_pal_lld.c`.

Values of the C type `uint32_t` (`ioportmask_t`, `iomode_t`, `ioline_t`, the
registers, and pointers on this 32-bit target) are natural numbers below
`2 ^ 32`.  The operations that can leave that range (`<<` and `~`) are
reduced modulo `2 ^ 32` explicitly.
-/

namespace SN32PAL

/-! ## Machine words -/

/-- C `~x` on a `uint32_t` operand. -/
def not32 (x : Nat) : Nat := 0xFFFFFFFF ^^^ (x % 2 ^ 32)

/-- C `x << n` on a `uint32_t` operand, for a shift count below 32. -/
def shl32 (x n : Nat) : Nat := (x <<< n) % 2 ^ 32

/-! ## Build variants and mode constants (`hal_pal_lld.h`, lines 53-78) -/

/-- The `SN32_SERIES_*` symbol the build defines (`SN32F2xx.h`). -/
inductive Series where
  | SN32F24x
  | SN32F24xB
  | SN32F26x
deriving DecidableEq, Repr

/-- Header line `#define PAL_MODE_INPUT_PULLUP 0x0`. -/
def PAL_MODE_INPUT_PULLUP : Nat := 0x0

/-- The constant `PAL_MODE_INPUT_PULLDOWN` is `0x1` under `#if defined(SN32_SERIES_SN32F24xB)`
and undefined otherwise. -/
def PAL_MODE_INPUT_PULLDOWN : Series → Option Nat
  | .SN32F24xB => some 0x1
  | _ => none

/-- Header line `#define PAL_MODE_RESET 0x2`. -/
def PAL_MODE_RESET : Nat := 0x2

/-- Header line `#define PAL_MODE_INPUT 0x2`. -/
def PAL_MODE_INPUT : Nat := 0x2

/-- The constant `PAL_MODE_INPUT_REPEATER` is `0x3` under `#if defined(SN32_SERIES_SN32F24x)`. -/
def PAL_MODE_INPUT_REPEATER : Series → Option Nat
  | .SN32F24x => some 0x3
  | _ => none

/-- The constant `PAL_MODE_UNCONNECTED` is `0x3` in the `#else` branch of
`#if defined(SN32_SERIES_SN32F24x)`. -/
def PAL_MODE_UNCONNECTED : Series → Option Nat
  | .SN32F24x => none
  | _ => some 0x3

/-- Header line `#define PAL_MODE_OUTPUT_PUSHPULL 0x10`. -/
def PAL_MODE_OUTPUT_PUSHPULL : Nat := 0x10

/-- The constant `PAL_MODE_OUTPUT_PUSHPULL_20MA` is `0x20` under
`#if defined(SN32_SERIES_SN32F24x) || defined(SN32_SERIES_SN32F26x)`. -/
def PAL_MODE_OUTPUT_PUSHPULL_20MA : Series → Option Nat
  | .SN32F24x => some 0x20
  | .SN32F26x => some 0x20
  | .SN32F24xB => none

/-- The input-family mode constants the header defines for a build. -/
def inputModes (s : Series) : List Nat :=
  [PAL_MODE_INPUT_PULLUP] ++ (PAL_MODE_INPUT_PULLDOWN s).toList ++ [PAL_MODE_INPUT]
    ++ (PAL_MODE_INPUT_REPEATER s).toList ++ (PAL_MODE_UNCONNECTED s).toList

/-- Every `PAL_MODE_*` constant the header defines for a build. -/
def definedModes (s : Series) : List Nat :=
  inputModes s ++ [PAL_MODE_RESET, PAL_MODE_OUTPUT_PUSHPULL]
    ++ (PAL_MODE_OUTPUT_PUSHPULL_20MA s).toList

/-! ## Ports and lines (`hal_pal_lld.h`, lines 86-133) -/

/-- Header line `#define PAL_IOPORTS_WIDTH 16`. -/
def PAL_IOPORTS_WIDTH : Nat := 16

/-- Header line `#define PAL_WHOLE_PORT ((ioportmask_t)0xFFFF)`. -/
def PAL_WHOLE_PORT : Nat := 0xFFFF

/-- Header line `#define PAL_LINE(port, pad) ((ioline_t)((uint32_t)(port)) | ((uint32_t)(pad)))`. -/
def PAL_LINE (port pad : Nat) : Nat := (port % 2 ^ 32) ||| (pad % 2 ^ 32)

/-- Header line `#define PAL_PORT(line) ((SN_GPIO0_Type *)(((uint32_t)(line)) & 0xFFFFFFF0U))`. -/
def PAL_PORT (line : Nat) : Nat := (line % 2 ^ 32) &&& 0xFFFFFFF0

/-- Header line `#define PAL_PAD(line) ((uint32_t)((uint32_t)(line) & 0x0000000FU))`. -/
def PAL_PAD (line : Nat) : Nat := (line % 2 ^ 32) &&& 0x0000000F

/-- Header line `#define PAL_NOLINE 0U`. -/
def PAL_NOLINE : Nat := 0

/-! ## The register block and the mode programmer (`hal_pal_lld.c`, lines 83-135) -/

/-- Modelled from the spec: the register block `SN_GPIO0_Type` is declared in the
vendor headers (`SN32F240.h`, `SN32F240B.h`, `SN32F260.h`), which are not among the
sources.  The two registers the mode programmer touches are kept: a read/write `CFG`
register (2 bits per pin) and a read/write `MODE` register whose low 16 bits are the
per-pin direction and whose high 16 bits are the per-pin drive strength. -/
structure SN_GPIO0_Type where
  CFG : Nat
  MODE : Nat
deriving DecidableEq, Repr

/-- One iteration of the loop at lines 106-111; the accumulator is
`(cfg_value, cfg_mask)`.  The constant `0x3 << (bit * 2)` is taken as the 32-bit
pattern the compiler produces, which is what the `|=` into a `uint32_t` stores. -/
def cfgLoopBody (mask mode : Nat) (acc : Nat × Nat) (bit : Nat) : Nat × Nat :=
  if mask &&& (1 <<< bit) ≠ 0 then
    (acc.1 ||| shl32 mode (bit * 2), acc.2 ||| shl32 0x3 (bit * 2))
  else
    acc

/-- The loop at lines 104-111 run for `bit = 0 .. n - 1`, from `cfg_value = 0` and
`cfg_mask = 0`. -/
def cfgLoopUpTo (mask mode n : Nat) : Nat × Nat :=
  (List.range n).foldl (cfgLoopBody mask mode) (0, 0)

/-- The loop at lines 104-111: `for (int bit = 0; bit < PAL_IOPORTS_WIDTH; bit++)`. -/
def cfgLoop (mask mode : Nat) : Nat × Nat :=
  cfgLoopUpTo mask mode PAL_IOPORTS_WIDTH

/-- The case labels at lines 91-101 that are compiled in for a build. -/
def isInputCase (s : Series) (mode : Nat) : Bool :=
  mode == PAL_MODE_INPUT
    || PAL_MODE_INPUT_PULLDOWN s == some mode
    || PAL_MODE_UNCONNECTED s == some mode
    || PAL_MODE_INPUT_REPEATER s == some mode
    || mode == PAL_MODE_INPUT_PULLUP

/-- The function `_pal_lld_setgroupmode(port, mask, mode)`: the register block after
the call, given the register block before it. -/
def _pal_lld_setgroupmode (s : Series) (port : SN_GPIO0_Type) (mask mode : Nat) :
    SN_GPIO0_Type :=
  if isInputCase s mode then
    let cfg := cfgLoop mask mode
    let cfg_value := cfg.1
    let cfg_mask := cfg.2
    -- Update the CFG with the value and mask
    let port1 := { port with CFG := (port.CFG &&& not32 cfg_mask) ||| cfg_value }
    -- Clear CURRENT and MODE
    { port1 with MODE := port1.MODE &&& not32 (shl32 mask 16) &&& not32 mask }
  else if mode = PAL_MODE_OUTPUT_PUSHPULL then
    -- Clear CURRENT and set MODE
    { port with MODE := (port.MODE &&& not32 (shl32 mask 16)) ||| mask }
  else if PAL_MODE_OUTPUT_PUSHPULL_20MA s = some mode then
    -- Set CURRENT and MODE
    { port with MODE := port.MODE ||| shl32 mask 16 ||| mask }
  else
    port

/-! ## Observations on a register block -/

/-- The 2-bit CFG field of pin `p` (bits `2p` and `2p + 1` of `CFG`). -/
def cfgField (port : SN_GPIO0_Type) (p : Nat) : Nat := (port.CFG >>> (2 * p)) % 4

/-- The direction bit of pin `p` (bit `p` of `MODE`). -/
def dirBit (port : SN_GPIO0_Type) (p : Nat) : Bool := port.MODE.testBit p

/-- The drive-strength bit of pin `p` (bit `p + 16` of `MODE`). -/
def driveBit (port : SN_GPIO0_Type) (p : Nat) : Bool := port.MODE.testBit (p + 16)

/-! ## The group-mode wrapper and the case labels -/

/-- Header line
`#define pal_lld_setgroupmode(port, mask, offset, mode) _pal_lld_setgroupmode(port, mask << offset, mode)`,
with `mask` of type `ioportmask_t`. -/
def pal_lld_setgroupmode (s : Series) (port : SN_GPIO0_Type) (mask offset mode : Nat) :
    SN_GPIO0_Type :=
  _pal_lld_setgroupmode s port (shl32 mask offset) mode

/-- The case labels of the switch at lines 87-134 that are compiled in for a build, in
source order (`PAL_MODE_RESET` appears at line 90 only inside a comment). -/
def caseLabels (s : Series) : List Nat :=
  [PAL_MODE_INPUT] ++ (PAL_MODE_INPUT_PULLDOWN s).toList ++ (PAL_MODE_UNCONNECTED s).toList
    ++ (PAL_MODE_INPUT_REPEATER s).toList ++ [PAL_MODE_INPUT_PULLUP]
    ++ [PAL_MODE_OUTPUT_PUSHPULL] ++ (PAL_MODE_OUTPUT_PUSHPULL_20MA s).toList

/-- The output-family mode constants the header defines for a build. -/
def outputModes (s : Series) : List Nat :=
  [PAL_MODE_OUTPUT_PUSHPULL] ++ (PAL_MODE_OUTPUT_PUSHPULL_20MA s).toList

/-! ## Shift operands of the CFG synthesis loop (`hal_pal_lld.c`, lines 106-110) -/

/-- Largest value of the C type `int` on this target (32-bit two-complement). -/
def INT_MAX : Nat := 2 ^ 31 - 1

/-- Mathematical value of `1 << bit` at line 107; the literal `1` has type `int`. -/
def bitSelectShift (bit : Nat) : Nat := 1 <<< bit

/-- Mathematical value of `0x3 << (bit * 2)` at line 109; the literal `0x3` has type
`int`. -/
def cfgMaskShift (bit : Nat) : Nat := 0x3 <<< (bit * 2)

/-! ## Group write (`hal_pal_lld.h`, lines 241-315) -/

/-- Conversion `(uint16_t)(x)`. -/
def uint16_cast (x : Nat) : Nat := x % 2 ^ 16

/-- Modelled from the spec: the effect of a store to the write-only `BSET` register of
`SN_GPIO0_Type` (vendor header and hardware, not among the sources) on the 16-bit output
latch: the latch bits whose bit is set in the stored value become 1. -/
def write_BSET (latch v : Nat) : Nat := latch ||| v

/-- Modelled from the spec: the effect of a store to the write-only `BCLR` register of
`SN_GPIO0_Type` (vendor header and hardware, not among the sources) on the 16-bit output
latch: the latch bits whose bit is set in the stored value become 0. -/
def write_BCLR (latch v : Nat) : Nat := latch &&& (0xFFFF ^^^ v)

/-- Header line `#define pal_lld_setport(port, bits) ((port)->BSET = (uint16_t)(bits))`,
as a function of the output latch. -/
def pal_lld_setport (latch bits : Nat) : Nat := write_BSET latch (uint16_cast bits)

/-- Header line `#define pal_lld_clearport(port, bits) ((port)->BCLR = (uint16_t)(bits))`,
as a function of the output latch. -/
def pal_lld_clearport (latch bits : Nat) : Nat := write_BCLR latch (uint16_cast bits)

/-- The argument `(bits & mask) << offset` of the call at line 313. -/
def writegroup_set_arg (mask offset bits : Nat) : Nat := shl32 (bits &&& mask) offset

/-- The argument `(~bits & mask) << offset` of the call at line 314. -/
def writegroup_clear_arg (mask offset bits : Nat) : Nat := shl32 (not32 bits &&& mask) offset

/-- The function `_pal_lld_writegroup(port, mask, offset, bits)` at lines 312-315: the
output latch after the call, given the output latch before it. -/
def _pal_lld_writegroup (latch mask offset bits : Nat) : Nat :=
  let latch1 := pal_lld_setport latch (writegroup_set_arg mask offset bits)
  pal_lld_clearport latch1 (writegroup_clear_arg mask offset bits)

/-! ## Bit-level lemmas -/

theorem testBit_ones32 (i : Nat) : (4294967295 : Nat).testBit i = decide (i < 32) := by
  have h := Nat.testBit_two_pow_sub_one 32 i
  simpa using h

theorem testBit_not32 (x i : Nat) :
    (not32 x).testBit i = (decide (i < 32) && !x.testBit i) := by
  unfold not32
  rw [Nat.testBit_xor, Nat.testBit_mod_two_pow, testBit_ones32]
  by_cases h : i < 32 <;> simp [h]

theorem testBit_shl32 (x n i : Nat) :
    (shl32 x n).testBit i = (decide (i < 32) && (decide (n ≤ i) && x.testBit (i - n))) := by
  unfold shl32
  rw [Nat.testBit_mod_two_pow, Nat.testBit_shiftLeft]

theorem testBit_of_lt {x n i : Nat} (hx : x < 2 ^ n) (hi : n ≤ i) : x.testBit i = false :=
  Nat.testBit_lt_two_pow (lt_of_lt_of_le hx (Nat.pow_le_pow_right (by decide) hi))

theorem testBit_fifteen (i : Nat) : (15 : Nat).testBit i = decide (i < 4) := by
  have h := Nat.testBit_two_pow_sub_one 4 i
  simpa using h

theorem testBit_portMask (i : Nat) :
    (0xFFFFFFF0 : Nat).testBit i = (decide (i < 32) && !decide (i < 4)) := by
  have h := Nat.testBit_two_pow_sub_succ (show 15 < 2 ^ 32 by decide) i
  rw [testBit_fifteen] at h
  simpa using h

theorem testBit_low_of_aligned {port i : Nat} (hal : port % 16 = 0) (hi : i < 4) :
    port.testBit i = false := by
  have h := Nat.testBit_mod_two_pow port 4 i
  rw [show (2 : Nat) ^ 4 = 16 from rfl, hal] at h
  simpa [hi] using h.symm

theorem testBit_three (i : Nat) : (3 : Nat).testBit i = decide (i < 2) := by
  have h := Nat.testBit_two_pow_sub_one 2 i
  simpa using h

theorem and_one_shiftLeft_ne_zero (mask bit : Nat) :
    mask &&& (1 <<< bit) ≠ 0 ↔ mask.testBit bit = true := by
  rw [Nat.one_shiftLeft]
  constructor
  · intro h
    by_contra hb
    apply h
    apply Nat.eq_of_testBit_eq
    intro j
    rw [Nat.testBit_and, Nat.testBit_two_pow, Nat.zero_testBit]
    by_cases hj : bit = j
    · subst hj; simp [hb]
    · simp [hj]
  · intro hb h
    have h2 : (mask &&& 2 ^ bit).testBit bit = true := by
      rw [Nat.testBit_and, Nat.testBit_two_pow_self, hb]; rfl
    rw [h, Nat.zero_testBit] at h2
    exact Bool.noConfusion h2

theorem mod_four_eq_of_testBit {a b : Nat} (h0 : a.testBit 0 = b.testBit 0)
    (h1 : a.testBit 1 = b.testBit 1) : a % 4 = b % 4 := by
  apply Nat.eq_of_testBit_eq
  intro j
  rw [show (4 : Nat) = 2 ^ 2 from rfl, Nat.testBit_mod_two_pow, Nat.testBit_mod_two_pow]
  by_cases hj : j < 2
  · have : j = 0 ∨ j = 1 := by omega
    rcases this with rfl | rfl
    · simp [h0]
    · simp [h1]
  · simp [hj]

/-! ## The CFG synthesis loop -/

theorem cfgLoopUpTo_succ (mask mode n : Nat) :
    cfgLoopUpTo mask mode (n + 1) = cfgLoopBody mask mode (cfgLoopUpTo mask mode n) n := by
  simp [cfgLoopUpTo, List.range_succ, List.foldl_append]

theorem testBit_cfgLoopUpTo_mask (mask mode n i : Nat) :
    (cfgLoopUpTo mask mode n).2.testBit i
      = (decide (i < 32) && (decide (i / 2 < n) && mask.testBit (i / 2))) := by
  induction n with
  | zero => simp [cfgLoopUpTo]
  | succ n ih =>
    rw [cfgLoopUpTo_succ, cfgLoopBody]
    by_cases hb : mask.testBit n = true
    · rw [if_pos ((and_one_shiftLeft_ne_zero mask n).2 hb)]
      simp only [Nat.testBit_or, ih, testBit_shl32, testBit_three]
      by_cases h32 : i < 32
      · by_cases hlt : i / 2 < n
        · have h1 : i / 2 < n + 1 := by omega
          have h2 : ¬ n * 2 ≤ i := by omega
          simp [h32, hlt, h1, h2]
        · by_cases heq : i / 2 = n
          · have h1 : i / 2 < n + 1 := by omega
            have h2 : n * 2 ≤ i := by omega
            have h3 : i - n * 2 < 2 := by omega
            simp [h32, hlt, h1, h2, h3, heq, hb]
          · have h1 : ¬ i / 2 < n + 1 := by omega
            have h3 : ¬ i - n * 2 < 2 := by omega
            simp [h32, hlt, h1, h3]
      · simp [h32]
    · rw [if_neg (fun h => hb ((and_one_shiftLeft_ne_zero mask n).1 h)), ih]
      by_cases h32 : i < 32
      · by_cases hlt : i / 2 < n
        · have h1 : i / 2 < n + 1 := by omega
          simp [h32, hlt, h1]
        · by_cases heq : i / 2 = n
          · have h1 : i / 2 < n + 1 := by omega
            simp at hb
            simp [h32, hlt, h1, heq, hb]
          · have h1 : ¬ i / 2 < n + 1 := by omega
            simp [h32, hlt, h1]
      · simp [h32]

theorem testBit_cfgLoopUpTo_value (mask mode n i : Nat) (hmode : mode < 4) :
    (cfgLoopUpTo mask mode n).1.testBit i
      = (decide (i < 32) && (decide (i / 2 < n) && (mask.testBit (i / 2)
          && mode.testBit (i % 2)))) := by
  induction n with
  | zero => simp [cfgLoopUpTo]
  | succ n ih =>
    rw [cfgLoopUpTo_succ, cfgLoopBody]
    by_cases hb : mask.testBit n = true
    · rw [if_pos ((and_one_shiftLeft_ne_zero mask n).2 hb)]
      simp only [Nat.testBit_or, ih, testBit_shl32]
      by_cases h32 : i < 32
      · by_cases hlt : i / 2 < n
        · have h1 : i / 2 < n + 1 := by omega
          have h2 : ¬ n * 2 ≤ i := by omega
          simp [h32, hlt, h1, h2]
        · by_cases heq : i / 2 = n
          · have h1 : i / 2 < n + 1 := by omega
            have h2 : n * 2 ≤ i := by omega
            have h3 : i - n * 2 = i % 2 := by omega
            simp [h32, hlt, h1, h2, h3, heq, hb]
          · have h1 : ¬ i / 2 < n + 1 := by omega
            have h3 : mode.testBit (i - n * 2) = false :=
              testBit_of_lt (show mode < 2 ^ 2 from hmode) (by omega)
            simp [h32, hlt, h1, h3]
      · simp [h32]
    · rw [if_neg (fun h => hb ((and_one_shiftLeft_ne_zero mask n).1 h)), ih]
      by_cases h32 : i < 32
      · by_cases hlt : i / 2 < n
        · have h1 : i / 2 < n + 1 := by omega
          simp [h32, hlt, h1]
        · by_cases heq : i / 2 = n
          · have h1 : i / 2 < n + 1 := by omega
            simp at hb
            simp [h32, hlt, h1, heq, hb]
          · have h1 : ¬ i / 2 < n + 1 := by omega
            simp [h32, hlt, h1]
      · simp [h32]

theorem testBit_cfgLoop_mask (mask mode i : Nat) :
    (cfgLoop mask mode).2.testBit i = (decide (i < 32) && mask.testBit (i / 2)) := by
  rw [cfgLoop, testBit_cfgLoopUpTo_mask, PAL_IOPORTS_WIDTH]
  by_cases h32 : i < 32
  · have h : i / 2 < 16 := by omega
    simp [h32, h]
  · simp [h32]

theorem testBit_cfgLoop_value (mask mode i : Nat) (hmode : mode < 4) :
    (cfgLoop mask mode).1.testBit i
      = (decide (i < 32) && (mask.testBit (i / 2) && mode.testBit (i % 2))) := by
  rw [cfgLoop, testBit_cfgLoopUpTo_value mask mode _ i hmode, PAL_IOPORTS_WIDTH]
  by_cases h32 : i < 32
  · have h : i / 2 < 16 := by omega
    simp [h32, h]
  · simp [h32]

/-! ## The mode programmer, branch by branch -/

theorem isInputCase_lt_four {s : Series} {mode : Nat} (h : isInputCase s mode = true) :
    mode < 4 := by
  cases s <;>
    simp [isInputCase, PAL_MODE_INPUT, PAL_MODE_INPUT_PULLDOWN, PAL_MODE_UNCONNECTED,
      PAL_MODE_INPUT_REPEATER, PAL_MODE_INPUT_PULLUP] at h <;> omega

theorem isInputCase_iff_mem (s : Series) (mode : Nat) :
    isInputCase s mode = true ↔ mode ∈ inputModes s := by
  cases s <;>
    simp [isInputCase, inputModes, PAL_MODE_INPUT, PAL_MODE_INPUT_PULLDOWN,
      PAL_MODE_UNCONNECTED, PAL_MODE_INPUT_REPEATER, PAL_MODE_INPUT_PULLUP] <;> omega

theorem setgroupmode_input_CFG {s : Series} {mode : Nat} (port : SN_GPIO0_Type) (mask : Nat)
    (h : isInputCase s mode = true) :
    (_pal_lld_setgroupmode s port mask mode).CFG
      = (port.CFG &&& not32 (cfgLoop mask mode).2) ||| (cfgLoop mask mode).1 := by
  simp [_pal_lld_setgroupmode, h]

theorem setgroupmode_input_MODE {s : Series} {mode : Nat} (port : SN_GPIO0_Type) (mask : Nat)
    (h : isInputCase s mode = true) :
    (_pal_lld_setgroupmode s port mask mode).MODE
      = port.MODE &&& not32 (shl32 mask 16) &&& not32 mask := by
  simp [_pal_lld_setgroupmode, h]

theorem setgroupmode_pushpull (s : Series) (port : SN_GPIO0_Type) (mask : Nat) :
    _pal_lld_setgroupmode s port mask PAL_MODE_OUTPUT_PUSHPULL
      = { port with MODE := (port.MODE &&& not32 (shl32 mask 16)) ||| mask } := by
  have h : isInputCase s PAL_MODE_OUTPUT_PUSHPULL = false := by cases s <;> rfl
  simp [_pal_lld_setgroupmode, h]

theorem setgroupmode_20ma {s : Series} {mode : Nat} (port : SN_GPIO0_Type) (mask : Nat)
    (h : PAL_MODE_OUTPUT_PUSHPULL_20MA s = some mode) :
    _pal_lld_setgroupmode s port mask mode
      = { port with MODE := port.MODE ||| shl32 mask 16 ||| mask } := by
  have hm : mode = 0x20 := by
    cases s <;> simp [PAL_MODE_OUTPUT_PUSHPULL_20MA] at h <;> omega
  subst hm
  have hi : isInputCase s 0x20 = false := by cases s <;> rfl
  have hne : ¬ (0x20 = PAL_MODE_OUTPUT_PUSHPULL) := by decide
  simp [_pal_lld_setgroupmode, hi, hne, h]

theorem setgroupmode_default {s : Series} {mode : Nat} (port : SN_GPIO0_Type) (mask : Nat)
    (hi : isInputCase s mode = false) (ho : mode ≠ PAL_MODE_OUTPUT_PUSHPULL)
    (h20 : PAL_MODE_OUTPUT_PUSHPULL_20MA s ≠ some mode) :
    _pal_lld_setgroupmode s port mask mode = port := by
  simp [_pal_lld_setgroupmode, hi, ho, h20]

theorem testBit_input_CFG {s : Series} {mode : Nat} (port : SN_GPIO0_Type) (mask i : Nat)
    (h : isInputCase s mode = true) :
    (_pal_lld_setgroupmode s port mask mode).CFG.testBit i
      = ((port.CFG.testBit i && (decide (i < 32) && !mask.testBit (i / 2)))
          || (decide (i < 32) && (mask.testBit (i / 2) && mode.testBit (i % 2)))) := by
  rw [setgroupmode_input_CFG port mask h, Nat.testBit_or, Nat.testBit_and, testBit_not32,
    testBit_cfgLoop_mask, testBit_cfgLoop_value mask mode i (isInputCase_lt_four h)]
  by_cases h32 : i < 32 <;> simp [h32]

theorem testBit_input_MODE {s : Series} {mode : Nat} (port : SN_GPIO0_Type) (mask i : Nat)
    (h : isInputCase s mode = true) :
    (_pal_lld_setgroupmode s port mask mode).MODE.testBit i
      = (port.MODE.testBit i && (decide (i < 32)
          && (!(decide (16 ≤ i) && mask.testBit (i - 16)) && !mask.testBit i))) := by
  rw [setgroupmode_input_MODE port mask h, Nat.testBit_and, Nat.testBit_and, testBit_not32,
    testBit_not32, testBit_shl32]
  by_cases h32 : i < 32 <;> simp [h32, Bool.and_assoc]

theorem testBit_pushpull_MODE (s : Series) (port : SN_GPIO0_Type) (mask i : Nat) :
    (_pal_lld_setgroupmode s port mask PAL_MODE_OUTPUT_PUSHPULL).MODE.testBit i
      = ((port.MODE.testBit i && (decide (i < 32)
          && !(decide (16 ≤ i) && mask.testBit (i - 16)))) || mask.testBit i) := by
  rw [setgroupmode_pushpull]
  simp only [Nat.testBit_or, Nat.testBit_and, testBit_not32, testBit_shl32]
  by_cases h32 : i < 32 <;> simp [h32]

theorem testBit_20ma_MODE {s : Series} {mode : Nat} (port : SN_GPIO0_Type) (mask i : Nat)
    (h : PAL_MODE_OUTPUT_PUSHPULL_20MA s = some mode) :
    (_pal_lld_setgroupmode s port mask mode).MODE.testBit i
      = ((port.MODE.testBit i || (decide (i < 32)
          && (decide (16 ≤ i) && mask.testBit (i - 16)))) || mask.testBit i) := by
  rw [setgroupmode_20ma port mask h]
  simp only [Nat.testBit_or, testBit_shl32]

theorem cfgField_congr {a b : SN_GPIO0_Type} {p : Nat}
    (h0 : a.CFG.testBit (2 * p) = b.CFG.testBit (2 * p))
    (h1 : a.CFG.testBit (2 * p + 1) = b.CFG.testBit (2 * p + 1)) :
    cfgField a p = cfgField b p := by
  unfold cfgField
  apply mod_four_eq_of_testBit
  · simpa [Nat.testBit_shiftRight] using h0
  · simpa [Nat.testBit_shiftRight] using h1

/-! ## Line codec lemmas -/

theorem PAL_PORT_of_LINE {port pad : Nat} (hport : port < 2 ^ 32) (hal : port % 16 = 0)
    (hpad : pad < 16) : PAL_PORT (PAL_LINE port pad) = port := by
  apply Nat.eq_of_testBit_eq
  intro i
  simp only [PAL_PORT, PAL_LINE, Nat.testBit_and, Nat.testBit_or, Nat.testBit_mod_two_pow,
    testBit_portMask]
  by_cases h4 : i < 4
  · have h32 : i < 32 := by omega
    simp [h4, h32, testBit_low_of_aligned hal h4]
  · have hp : pad.testBit i = false :=
      testBit_of_lt (show pad < 2 ^ 4 from hpad) (by omega)
    by_cases h32 : i < 32
    · simp [h4, h32, hp]
    · simp [h32, testBit_of_lt hport (by omega : 32 ≤ i)]

theorem PAL_PAD_of_LINE {port pad : Nat} (hal : port % 16 = 0)
    (hpad : pad < 16) : PAL_PAD (PAL_LINE port pad) = pad := by
  apply Nat.eq_of_testBit_eq
  intro i
  simp only [PAL_PAD, PAL_LINE, Nat.testBit_and, Nat.testBit_or, Nat.testBit_mod_two_pow,
    testBit_fifteen]
  by_cases h4 : i < 4
  · have h32 : i < 32 := by omega
    simp [h4, h32, testBit_low_of_aligned hal h4]
  · have hp : pad.testBit i = false :=
      testBit_of_lt (show pad < 2 ^ 4 from hpad) (by omega)
    simp [h4, hp]

/-! ## Claims on the line codec -/

/-- C1: round trip of the line codec.  For every port base address (a 32-bit value)
whose low 4 bits are zero and every pad in [0, 16), decoding the line formed from them
gives the port and the pad back. -/
theorem C1_line_round_trip (port pad : Nat) (hport : port < 2 ^ 32)
    (hal : port % 16 = 0) (hpad : pad < PAL_IOPORTS_WIDTH) :
    PAL_PORT (PAL_LINE port pad) = port ∧ PAL_PAD (PAL_LINE port pad) = pad :=
  ⟨PAL_PORT_of_LINE hport hal hpad, PAL_PAD_of_LINE hal hpad⟩

theorem C1_line_round_trip_witness :
    PAL_PORT (PAL_LINE 0x40044000 7) = 0x40044000 ∧ PAL_PAD (PAL_LINE 0x40044000 7) = 7 :=
  C1_line_round_trip 0x40044000 7 (by decide) (by decide) (by decide)

/-- C7: disjointness of the line encoding.  Two aligned 32-bit port base addresses and
two pads in [0, 16) that encode to the same line are the same port and the same pad. -/
theorem C7_line_injective (port1 pad1 port2 pad2 : Nat)
    (hport1 : port1 < 2 ^ 32) (hal1 : port1 % 16 = 0) (hpad1 : pad1 < PAL_IOPORTS_WIDTH)
    (hport2 : port2 < 2 ^ 32) (hal2 : port2 % 16 = 0) (hpad2 : pad2 < PAL_IOPORTS_WIDTH)
    (h : PAL_LINE port1 pad1 = PAL_LINE port2 pad2) :
    port1 = port2 ∧ pad1 = pad2 := by
  constructor
  · rw [← PAL_PORT_of_LINE hport1 hal1 hpad1, h, PAL_PORT_of_LINE hport2 hal2 hpad2]
  · rw [← PAL_PAD_of_LINE hal1 hpad1, h, PAL_PAD_of_LINE hal2 hpad2]

theorem C7_line_injective_witness :
    (0x40044000 : Nat) = 0x40044000 ∧ (3 : Nat) = 3 :=
  C7_line_injective 0x40044000 3 0x40044000 3 (by decide) (by decide) (by decide)
    (by decide) (by decide) (by decide) rfl

/-- C10: the sentinel is never a real line.  For every non-zero aligned 32-bit port base
address and every pad in [0, 16), the line formed from them differs from PAL_NOLINE. -/
theorem C10_line_ne_noline (port pad : Nat) (hport : port < 2 ^ 32) (hne : port ≠ 0)
    (hal : port % 16 = 0) (hpad : pad < PAL_IOPORTS_WIDTH) :
    PAL_LINE port pad ≠ PAL_NOLINE := by
  intro h
  have hp := PAL_PORT_of_LINE hport hal hpad
  rw [h] at hp
  exact hne hp.symm

theorem C10_line_ne_noline_witness : PAL_LINE 0x40044000 0 ≠ PAL_NOLINE :=
  C10_line_ne_noline 0x40044000 0 (by decide) (by decide) (by decide) (by decide)

/-! ## Claims on the mode programmer -/

/-- C2: group-mode framing.  For every build, every mode value, every mask that fits in
16 bits and every initial register block, a pin p in [0, 16) whose bit is not set in the
mask keeps its 2-bit CFG field, its direction bit and its drive-strength bit across
the call. -/
theorem C2_group_mode_framing (s : Series) (port : SN_GPIO0_Type) (mask mode p : Nat)
    (hmask : mask < 2 ^ 16) (hp : p < PAL_IOPORTS_WIDTH) (hbit : mask.testBit p = false) :
    cfgField (_pal_lld_setgroupmode s port mask mode) p = cfgField port p
      ∧ dirBit (_pal_lld_setgroupmode s port mask mode) p = dirBit port p
      ∧ driveBit (_pal_lld_setgroupmode s port mask mode) p = driveBit port p := by
  have hp16 : p < 16 := hp
  have hhi : mask.testBit (p + 16) = false := testBit_of_lt hmask (by omega)
  have hsub : p + 16 - 16 = p := by omega
  by_cases hi : isInputCase s mode = true
  · refine ⟨cfgField_congr ?_ ?_, ?_, ?_⟩
    · have h32 : 2 * p < 32 := by omega
      have hd : 2 * p / 2 = p := by omega
      rw [testBit_input_CFG port mask _ hi]
      simp [h32, hd, hbit]
    · have h32 : 2 * p + 1 < 32 := by omega
      have hd : (2 * p + 1) / 2 = p := by omega
      rw [testBit_input_CFG port mask _ hi]
      simp [h32, hd, hbit]
    · have h32 : p < 32 := by omega
      have h16 : ¬ 16 ≤ p := by omega
      unfold dirBit
      rw [testBit_input_MODE port mask _ hi]
      simp [h32, h16, hbit]
    · have h32 : p + 16 < 32 := by omega
      unfold driveBit
      rw [testBit_input_MODE port mask _ hi]
      simp [h32, hsub, hbit, hhi]
  · by_cases ho : mode = PAL_MODE_OUTPUT_PUSHPULL
    · subst ho
      refine ⟨?_, ?_, ?_⟩
      · rw [setgroupmode_pushpull]; rfl
      · have h32 : p < 32 := by omega
        have h16 : ¬ 16 ≤ p := by omega
        unfold dirBit
        rw [testBit_pushpull_MODE]
        simp [h32, h16, hbit]
      · have h32 : p + 16 < 32 := by omega
        unfold driveBit
        rw [testBit_pushpull_MODE]
        simp [h32, hsub, hbit, hhi]
    · by_cases h20 : PAL_MODE_OUTPUT_PUSHPULL_20MA s = some mode
      · refine ⟨?_, ?_, ?_⟩
        · rw [setgroupmode_20ma port mask h20]; rfl
        · have h16 : ¬ 16 ≤ p := by omega
          unfold dirBit
          rw [testBit_20ma_MODE port mask _ h20]
          simp [h16, hbit]
        · unfold driveBit
          rw [testBit_20ma_MODE port mask _ h20]
          simp [hsub, hbit, hhi]
      · rw [setgroupmode_default port mask (by simpa using hi) ho h20]
        exact ⟨rfl, rfl, rfl⟩

theorem C2_group_mode_framing_witness :
    cfgField (_pal_lld_setgroupmode .SN32F24x ⟨0xAAAAAAAA, 0x00020002⟩ 0x0005 0x0) 1
        = cfgField ⟨0xAAAAAAAA, 0x00020002⟩ 1
      ∧ dirBit (_pal_lld_setgroupmode .SN32F24x ⟨0xAAAAAAAA, 0x00020002⟩ 0x0005 0x0) 1
        = dirBit ⟨0xAAAAAAAA, 0x00020002⟩ 1
      ∧ driveBit (_pal_lld_setgroupmode .SN32F24x ⟨0xAAAAAAAA, 0x00020002⟩ 0x0005 0x0) 1
        = driveBit ⟨0xAAAAAAAA, 0x00020002⟩ 1 :=
  C2_group_mode_framing .SN32F24x ⟨0xAAAAAAAA, 0x00020002⟩ 0x0005 0x0 1
    (by decide) (by decide) (by decide)

/-- C3: input-family effect.  For every build and every input-family mode m defined for
it (Input among them on every build), every mask (16-bit masks included) and every
initial register block, a pin p in [0, 16) whose bit is set in the mask has, after the
call, CFG field equal to m, direction bit 0 and drive-strength bit 0. -/
theorem C3_input_family_effect (s : Series) (port : SN_GPIO0_Type) (mask m p : Nat)
    (hm : m ∈ inputModes s) (hp : p < PAL_IOPORTS_WIDTH) (hbit : mask.testBit p = true) :
    PAL_MODE_INPUT ∈ inputModes s
      ∧ cfgField (_pal_lld_setgroupmode s port mask m) p = m
      ∧ dirBit (_pal_lld_setgroupmode s port mask m) p = false
      ∧ driveBit (_pal_lld_setgroupmode s port mask m) p = false := by
  have hp16 : p < 16 := hp
  have hi : isInputCase s m = true := (isInputCase_iff_mem s m).2 hm
  have hlt : m < 4 := isInputCase_lt_four hi
  refine ⟨by cases s <;> decide, ?_, ?_, ?_⟩
  · have hfield : cfgField (_pal_lld_setgroupmode s port mask m) p = m % 4 := by
      unfold cfgField
      apply mod_four_eq_of_testBit
      · have h32 : 2 * p < 32 := by omega
        have hd : 2 * p / 2 = p := by omega
        have hr : 2 * p % 2 = 0 := by omega
        rw [Nat.testBit_shiftRight, Nat.add_zero, testBit_input_CFG port mask _ hi]
        simp only [h32, hd, hr, hbit]
        simp
      · have h32 : 2 * p + 1 < 32 := by omega
        have hd : (2 * p + 1) / 2 = p := by omega
        have hr : (2 * p + 1) % 2 = 1 := by omega
        rw [Nat.testBit_shiftRight, testBit_input_CFG port mask _ hi]
        simp only [h32, hd, hr, hbit]
        simp
    rw [hfield, Nat.mod_eq_of_lt hlt]
  · unfold dirBit
    rw [testBit_input_MODE port mask _ hi]
    simp [hbit]
  · have hsub : p + 16 - 16 = p := by omega
    unfold driveBit
    rw [testBit_input_MODE port mask _ hi]
    simp [hsub, hbit]

theorem C3_input_family_effect_witness :
    PAL_MODE_INPUT ∈ inputModes .SN32F24xB
      ∧ cfgField (_pal_lld_setgroupmode .SN32F24xB ⟨0xFFFFFFFF, 0xFFFFFFFF⟩ 0x8001
          PAL_MODE_INPUT) 15 = PAL_MODE_INPUT
      ∧ dirBit (_pal_lld_setgroupmode .SN32F24xB ⟨0xFFFFFFFF, 0xFFFFFFFF⟩ 0x8001
          PAL_MODE_INPUT) 15 = false
      ∧ driveBit (_pal_lld_setgroupmode .SN32F24xB ⟨0xFFFFFFFF, 0xFFFFFFFF⟩ 0x8001
          PAL_MODE_INPUT) 15 = false :=
  C3_input_family_effect .SN32F24xB ⟨0xFFFFFFFF, 0xFFFFFFFF⟩ 0x8001 PAL_MODE_INPUT 15
    (by decide) (by decide) (by decide)

/-- C4: OutputPushPull effect.  For every build, every mask that fits in 16 bits and
every initial register block, after programming PAL_MODE_OUTPUT_PUSHPULL a pin p in
[0, 16) whose bit is set in the mask has direction bit 1 and drive-strength bit 0, and
the whole CFG register is what it was before the call. -/
theorem C4_output_pushpull_effect (s : Series) (port : SN_GPIO0_Type) (mask p : Nat)
    (hmask : mask < 2 ^ 16) (hp : p < PAL_IOPORTS_WIDTH) (hbit : mask.testBit p = true) :
    dirBit (_pal_lld_setgroupmode s port mask PAL_MODE_OUTPUT_PUSHPULL) p = true
      ∧ driveBit (_pal_lld_setgroupmode s port mask PAL_MODE_OUTPUT_PUSHPULL) p = false
      ∧ (_pal_lld_setgroupmode s port mask PAL_MODE_OUTPUT_PUSHPULL).CFG = port.CFG := by
  have hp16 : p < 16 := hp
  have hhi : mask.testBit (p + 16) = false := testBit_of_lt hmask (by omega)
  have hsub : p + 16 - 16 = p := by omega
  refine ⟨?_, ?_, ?_⟩
  · unfold dirBit
    rw [testBit_pushpull_MODE]
    simp [hbit]
  · unfold driveBit
    rw [testBit_pushpull_MODE]
    simp [hsub, hbit, hhi]
  · rw [setgroupmode_pushpull]

theorem C4_output_pushpull_effect_witness :
    dirBit (_pal_lld_setgroupmode .SN32F26x ⟨0x12345678, 0xFFFF0000⟩ 0x00F0
        PAL_MODE_OUTPUT_PUSHPULL) 4 = true
      ∧ driveBit (_pal_lld_setgroupmode .SN32F26x ⟨0x12345678, 0xFFFF0000⟩ 0x00F0
        PAL_MODE_OUTPUT_PUSHPULL) 4 = false
      ∧ (_pal_lld_setgroupmode .SN32F26x ⟨0x12345678, 0xFFFF0000⟩ 0x00F0
        PAL_MODE_OUTPUT_PUSHPULL).CFG = 0x12345678 :=
  C4_output_pushpull_effect .SN32F26x ⟨0x12345678, 0xFFFF0000⟩ 0x00F0 4
    (by decide) (by decide) (by decide)

/-- C5: OutputPushPull20mA effect.  On a build that defines PAL_MODE_OUTPUT_PUSHPULL_20MA,
for every mask that fits in 16 bits and every initial register block, programming that
mode leaves MODE equal to old MODE | mask | (mask << 16) and CFG unchanged; and from
CFG = MODE = 0 with mask = 0x0005 the result is MODE = 0x00050005, CFG = 0. -/
theorem C5_output_pushpull_20ma_effect (s : Series) (port : SN_GPIO0_Type) (mask m : Nat)
    (hdef : PAL_MODE_OUTPUT_PUSHPULL_20MA s = some m) (hmask : mask < 2 ^ 16) :
    ((_pal_lld_setgroupmode s port mask m).MODE = port.MODE ||| mask ||| (mask <<< 16)
        ∧ (_pal_lld_setgroupmode s port mask m).CFG = port.CFG)
      ∧ _pal_lld_setgroupmode s ⟨0x00000000, 0x00000000⟩ 0x0005 m
          = ⟨0x00000000, 0x00050005⟩ := by
  have hshift : shl32 mask 16 = mask <<< 16 := by
    unfold shl32
    apply Nat.mod_eq_of_lt
    rw [Nat.shiftLeft_eq]
    have : mask * 2 ^ 16 < 2 ^ 16 * 2 ^ 16 := Nat.mul_lt_mul_of_pos_right hmask (by decide)
    simpa using this
  refine ⟨⟨?_, ?_⟩, ?_⟩
  · rw [setgroupmode_20ma port mask hdef, hshift]
    apply Nat.eq_of_testBit_eq
    intro i
    simp only [Nat.testBit_or]
    rw [Bool.or_assoc, Bool.or_assoc, Bool.or_comm (mask.testBit i)]
  · rw [setgroupmode_20ma port mask hdef]
  · rw [setgroupmode_20ma _ _ hdef]
    decide

theorem C5_output_pushpull_20ma_effect_witness :
    ((_pal_lld_setgroupmode .SN32F24x ⟨0x55555555, 0x00000100⟩ 0x0003 0x20).MODE
          = 0x00000100 ||| 0x0003 ||| (0x0003 <<< 16)
        ∧ (_pal_lld_setgroupmode .SN32F24x ⟨0x55555555, 0x00000100⟩ 0x0003 0x20).CFG
          = 0x55555555)
      ∧ _pal_lld_setgroupmode .SN32F24x ⟨0x00000000, 0x00000000⟩ 0x0005 0x20
          = ⟨0x00000000, 0x00050005⟩ :=
  C5_output_pushpull_20ma_effect .SN32F24x ⟨0x55555555, 0x00000100⟩ 0x0003 0x20
    (by decide) (by decide)

/-- C6: no-op policy.  For every build, every mode value that is not one of the mode
constants the header defines for that build, every mask and every initial register
block, the call returns the register block (CFG and MODE) exactly as it was. -/
theorem C6_unknown_mode_noop (s : Series) (port : SN_GPIO0_Type) (mask mode : Nat)
    (hmode : mode ∉ definedModes s) :
    _pal_lld_setgroupmode s port mask mode = port := by
  have hnot : mode ∉ inputModes s ∧ mode ≠ PAL_MODE_OUTPUT_PUSHPULL
      ∧ PAL_MODE_OUTPUT_PUSHPULL_20MA s ≠ some mode := by
    refine ⟨?_, ?_, ?_⟩
    · intro h; exact hmode (by simp [definedModes, h])
    · intro h; exact hmode (by simp [definedModes, h])
    · intro h; exact hmode (by simp [definedModes, h])
  have hi : isInputCase s mode = false := by
    rcases Bool.eq_false_or_eq_true (isInputCase s mode) with h | h
    · exact absurd ((isInputCase_iff_mem s mode).1 h) hnot.1
    · exact h
  exact setgroupmode_default port mask hi hnot.2.1 hnot.2.2

theorem C6_unknown_mode_noop_witness :
    _pal_lld_setgroupmode .SN32F24xB ⟨0xDEADBEEF, 0x0F0F00FF⟩ 0xFFFF 0x20
      = ⟨0xDEADBEEF, 0x0F0F00FF⟩ :=
  C6_unknown_mode_noop .SN32F24xB ⟨0xDEADBEEF, 0x0F0F00FF⟩ 0xFFFF 0x20 (by decide)

/-- C8: idempotence.  For every build, every mode value (defined or not), every mask and
every initial register block, two calls in a row with the same mask and mode leave the
same CFG and MODE as one call. -/
theorem C8_group_mode_idempotent (s : Series) (port : SN_GPIO0_Type) (mask mode : Nat) :
    _pal_lld_setgroupmode s (_pal_lld_setgroupmode s port mask mode) mask mode
      = _pal_lld_setgroupmode s port mask mode := by
  by_cases hi : isInputCase s mode = true
  · have hC : (_pal_lld_setgroupmode s (_pal_lld_setgroupmode s port mask mode) mask mode).CFG
        = (_pal_lld_setgroupmode s port mask mode).CFG := by
      apply Nat.eq_of_testBit_eq
      intro i
      rw [testBit_input_CFG _ mask i hi, testBit_input_CFG port mask i hi]
      cases port.CFG.testBit i <;> cases mask.testBit (i / 2) <;>
        cases mode.testBit (i % 2) <;> cases decide (i < 32) <;> rfl
    have hM : (_pal_lld_setgroupmode s (_pal_lld_setgroupmode s port mask mode) mask mode).MODE
        = (_pal_lld_setgroupmode s port mask mode).MODE := by
      apply Nat.eq_of_testBit_eq
      intro i
      rw [testBit_input_MODE _ mask i hi, testBit_input_MODE port mask i hi]
      cases port.MODE.testBit i <;> cases mask.testBit (i - 16) <;>
        cases mask.testBit i <;> cases decide (i < 32) <;> cases decide (16 ≤ i) <;> rfl
    cases hq : _pal_lld_setgroupmode s (_pal_lld_setgroupmode s port mask mode) mask mode
    cases hr : _pal_lld_setgroupmode s port mask mode
    rw [hq, hr] at hC hM
    simp only at hC hM
    rw [hC, hM]
  · by_cases ho : mode = PAL_MODE_OUTPUT_PUSHPULL
    · subst ho
      have hM : (_pal_lld_setgroupmode s (_pal_lld_setgroupmode s port mask
          PAL_MODE_OUTPUT_PUSHPULL) mask PAL_MODE_OUTPUT_PUSHPULL).MODE
          = (_pal_lld_setgroupmode s port mask PAL_MODE_OUTPUT_PUSHPULL).MODE := by
        apply Nat.eq_of_testBit_eq
        intro i
        rw [testBit_pushpull_MODE, testBit_pushpull_MODE]
        cases port.MODE.testBit i <;> cases mask.testBit (i - 16) <;>
          cases mask.testBit i <;> cases decide (i < 32) <;> cases decide (16 ≤ i) <;> rfl
      rw [setgroupmode_pushpull s (_pal_lld_setgroupmode s port mask PAL_MODE_OUTPUT_PUSHPULL)]
        at hM ⊢
      simp only at hM
      rw [hM]
    · by_cases h20 : PAL_MODE_OUTPUT_PUSHPULL_20MA s = some mode
      · have hM : (_pal_lld_setgroupmode s (_pal_lld_setgroupmode s port mask mode)
            mask mode).MODE = (_pal_lld_setgroupmode s port mask mode).MODE := by
          apply Nat.eq_of_testBit_eq
          intro i
          rw [testBit_20ma_MODE _ mask i h20, testBit_20ma_MODE port mask i h20]
          cases port.MODE.testBit i <;> cases mask.testBit (i - 16) <;>
            cases mask.testBit i <;> cases decide (i < 32) <;> cases decide (16 ≤ i) <;> rfl
        rw [setgroupmode_20ma (_pal_lld_setgroupmode s port mask mode) mask h20] at hM ⊢
        simp only at hM
        rw [hM]
      · have hd := setgroupmode_default port mask (by simpa using hi) ho h20
        rw [hd, hd]

/-- C9 (evaluation of the code at the failing input): on the SN32F24x build no input
pull-down mode is defined, and programming mode 0x1 on pin 0 leaves CFG and MODE as they
were: the CFG field of pin 0 stays 0x2 and its direction and drive-strength bits stay
set, where the header documents pull-down support for this variant. -/
theorem C9_pulldown_SN32F24x_code_behaviour :
    PAL_MODE_INPUT_PULLDOWN .SN32F24x = none
      ∧ _pal_lld_setgroupmode .SN32F24x ⟨0xAAAAAAAA, 0x00010001⟩ 0x0001 0x1
          = ⟨0xAAAAAAAA, 0x00010001⟩
      ∧ cfgField (_pal_lld_setgroupmode .SN32F24x ⟨0xAAAAAAAA, 0x00010001⟩ 0x0001 0x1) 0 = 0x2
      ∧ dirBit (_pal_lld_setgroupmode .SN32F24x ⟨0xAAAAAAAA, 0x00010001⟩ 0x0001 0x1) 0 = true
      ∧ driveBit (_pal_lld_setgroupmode .SN32F24x ⟨0xAAAAAAAA, 0x00010001⟩ 0x0001 0x1) 0
          = true := by
  decide

/-! ## Further claims on the line codec -/

/-- C11: decode is a total pure bit split.  For every 32-bit line value, PAL_PORT is the
line with its low 4 bits masked to zero (so a multiple of 16) and PAL_PAD is the line
masked to its low 4 bits (so a pin index below PAL_IOPORTS_WIDTH = 16). -/
theorem C11_decode_bit_split (line : Nat) (hline : line < 2 ^ 32) :
    PAL_PORT line = line &&& 0xFFFFFFF0 ∧ PAL_PORT line % 16 = 0
      ∧ PAL_PAD line = line &&& 0xF ∧ PAL_PAD line < PAL_IOPORTS_WIDTH := by
  refine ⟨?_, ?_, ?_, ?_⟩
  · rw [PAL_PORT, Nat.mod_eq_of_lt hline]
  · apply Nat.eq_of_testBit_eq
    intro i
    rw [show (16 : Nat) = 2 ^ 4 from rfl, Nat.testBit_mod_two_pow, PAL_PORT, Nat.testBit_and,
      testBit_portMask, Nat.zero_testBit]
    by_cases h4 : i < 4 <;> simp [h4]
  · rw [PAL_PAD, Nat.mod_eq_of_lt hline]
  · have h : PAL_PAD line ≤ 15 := by
      unfold PAL_PAD
      exact Nat.and_le_right
    have hw : PAL_IOPORTS_WIDTH = 16 := rfl
    omega

theorem C11_decode_bit_split_witness :
    PAL_PORT 0x4004400B = 0x4004400B &&& 0xFFFFFFF0 ∧ PAL_PORT 0x4004400B % 16 = 0
      ∧ PAL_PAD 0x4004400B = 0x4004400B &&& 0xF ∧ PAL_PAD 0x4004400B < PAL_IOPORTS_WIDTH :=
  C11_decode_bit_split 0x4004400B (by decide)

/-- C18: decode is lossless on every word.  For every 32-bit line value, whether or not
PAL_LINE produced it, re-encoding its decoded port and pad gives the line back. -/
theorem C18_encode_of_decode (line : Nat) (hline : line < 2 ^ 32) :
    PAL_LINE (PAL_PORT line) (PAL_PAD line) = line := by
  apply Nat.eq_of_testBit_eq
  intro i
  simp only [PAL_LINE, PAL_PORT, PAL_PAD, Nat.testBit_or, Nat.testBit_and,
    Nat.testBit_mod_two_pow, testBit_portMask, testBit_fifteen]
  by_cases h32 : i < 32
  · by_cases h4 : i < 4 <;> simp [h32, h4]
  · simp [h32, testBit_of_lt hline (by omega : 32 ≤ i)]

theorem C18_encode_of_decode_witness :
    PAL_LINE (PAL_PORT 0xDEADBEEF) (PAL_PAD 0xDEADBEEF) = 0xDEADBEEF :=
  C18_encode_of_decode 0xDEADBEEF (by decide)

/-! ## Mode table and shift operands -/

/-- C13: mode-table well-formedness.  On each of the three builds the input-family
constants defined are pairwise distinct and each is below 4, every output-family
constant defined differs from every input-family constant, the case labels of the
switch are pairwise distinct, and every mode constant defined for the build equals
exactly one case label, in the branch of its own family. -/
theorem C13_mode_table_well_formed (s : Series) :
    (inputModes s).Nodup
      ∧ (∀ m ∈ inputModes s, m < 4)
      ∧ (∀ o ∈ outputModes s, ∀ m ∈ inputModes s, o ≠ m)
      ∧ (caseLabels s).Nodup
      ∧ (∀ m ∈ definedModes s, (caseLabels s).count m = 1)
      ∧ (∀ m ∈ inputModes s, isInputCase s m = true)
      ∧ (∀ o ∈ outputModes s, isInputCase s o = false) := by
  cases s <;> decide

/-- C19 (evaluation of the code at the failing input): every shift count of the loop is
below 32 and 1 << bit fits a signed 32-bit int for every bit below 16, and
0x3 << (bit * 2) fits for every bit below 15; at bit = 15, which the loop reaches
with the test at line 107 true for mask = 0x8000, the value of 0x3 << 30 is
3 * 4 ^ 15 = 3221225472, above INT_MAX = 2147483647. -/
theorem C19_cfg_mask_shift_exceeds_int_at_bit_15 :
    (∀ bit < PAL_IOPORTS_WIDTH, bit < 32 ∧ bit * 2 < 32 ∧ bitSelectShift bit = 2 ^ bit
        ∧ bitSelectShift bit ≤ INT_MAX ∧ cfgMaskShift bit = 3 * 4 ^ bit)
      ∧ (∀ bit < 15, cfgMaskShift bit ≤ INT_MAX)
      ∧ 15 < PAL_IOPORTS_WIDTH
      ∧ 0x8000 &&& bitSelectShift 15 ≠ 0
      ∧ cfgMaskShift 15 = 3221225472
      ∧ INT_MAX = 2147483647
      ∧ INT_MAX < cfgMaskShift 15
      ∧ (cfgLoop 0x8000 PAL_MODE_INPUT).2 = cfgMaskShift 15 % 2 ^ 32 := by
  decide

/-! ## Group write -/

theorem testBit_ones16 (i : Nat) : (65535 : Nat).testBit i = decide (i < 16) := by
  have h := Nat.testBit_two_pow_sub_one 16 i
  simpa using h

theorem testBit_writegroup (latch mask offset bits i : Nat) :
    (_pal_lld_writegroup latch mask offset bits).testBit i
      = ((latch.testBit i
            || (decide (i < 16) && (decide (offset ≤ i)
                && (bits.testBit (i - offset) && mask.testBit (i - offset)))))
          && !(decide (offset ≤ i)
                && (!bits.testBit (i - offset) && mask.testBit (i - offset)))
          && decide (i < 16)) := by
  simp only [_pal_lld_writegroup, pal_lld_clearport, pal_lld_setport, write_BCLR, write_BSET,
    uint16_cast, writegroup_set_arg, writegroup_clear_arg, Nat.testBit_and, Nat.testBit_or,
    Nat.testBit_xor, Nat.testBit_mod_two_pow, testBit_shl32, testBit_not32, testBit_ones16]
  by_cases h16 : i < 16
  · have h32 : i < 32 := by omega
    have hsub : i - offset < 32 := by omega
    cases latch.testBit i <;> cases bits.testBit (i - offset) <;>
      cases mask.testBit (i - offset) <;> cases decide (offset ≤ i) <;>
      simp [h16, h32, hsub]
  · simp [h16]

theorem testBit_shiftLeft_fit {mask offset i : Nat} (hfit : mask <<< offset < 2 ^ 16)
    (hi : 16 ≤ i) : (decide (offset ≤ i) && mask.testBit (i - offset)) = false := by
  have h := testBit_of_lt hfit hi
  rwa [Nat.testBit_shiftLeft] at h


/-- C12: group write.  With a store of v to BSET acting as latch := latch | v and a
store of v to BCLR acting as latch := latch & ~v on a 16-bit output latch, for every
bits, mask and offset with mask << offset fitting in 16 bits, after the call every
latch bit selected by mask << offset equals the same bit of bits << offset and every
other latch bit is unchanged; bits outside the mask have no influence; and the values
stored to BSET and BCLR are disjoint with union exactly mask << offset. -/
theorem C12_group_write (latch mask offset bits : Nat) (hlatch : latch < 2 ^ 16)
    (hfit : mask <<< offset < 2 ^ 16) :
    (∀ i, (_pal_lld_writegroup latch mask offset bits).testBit i
        = if (mask <<< offset).testBit i = true then (bits <<< offset).testBit i
          else latch.testBit i)
      ∧ _pal_lld_writegroup latch mask offset bits
        = _pal_lld_writegroup latch mask offset (bits &&& mask)
      ∧ uint16_cast (writegroup_set_arg mask offset bits)
          &&& uint16_cast (writegroup_clear_arg mask offset bits) = 0
      ∧ uint16_cast (writegroup_set_arg mask offset bits)
          ||| uint16_cast (writegroup_clear_arg mask offset bits) = mask <<< offset := by
  refine ⟨?_, ?_, ?_, ?_⟩
  · intro i
    rw [testBit_writegroup, Nat.testBit_shiftLeft, Nat.testBit_shiftLeft]
    by_cases h16 : i < 16
    · cases latch.testBit i <;> cases bits.testBit (i - offset) <;>
        cases mask.testBit (i - offset) <;> cases decide (offset ≤ i) <;> simp [h16]
    · have hm := testBit_shiftLeft_fit hfit (by omega : 16 ≤ i)
      have hl : latch.testBit i = false := testBit_of_lt hlatch (by omega)
      simp [h16, hm, hl]
  · apply Nat.eq_of_testBit_eq
    intro i
    rw [testBit_writegroup, testBit_writegroup, Nat.testBit_and]
    cases latch.testBit i <;> cases bits.testBit (i - offset) <;>
      cases mask.testBit (i - offset) <;> cases decide (offset ≤ i) <;>
      cases decide (i < 16) <;> rfl
  · apply Nat.eq_of_testBit_eq
    intro i
    simp only [uint16_cast, writegroup_set_arg, writegroup_clear_arg, Nat.testBit_and,
      Nat.testBit_mod_two_pow, testBit_shl32, testBit_not32, Nat.zero_testBit]
    cases bits.testBit (i - offset) <;> cases mask.testBit (i - offset) <;> simp
  · apply Nat.eq_of_testBit_eq
    intro i
    simp only [uint16_cast, writegroup_set_arg, writegroup_clear_arg, Nat.testBit_and,
      Nat.testBit_or, Nat.testBit_mod_two_pow, testBit_shl32, testBit_not32,
      Nat.testBit_shiftLeft]
    by_cases h16 : i < 16
    · have h32 : i < 32 := by omega
      have hsub : i - offset < 32 := by omega
      cases bits.testBit (i - offset) <;> cases mask.testBit (i - offset) <;>
        cases decide (offset ≤ i) <;> simp [h16, h32, hsub]
    · have hm := testBit_shiftLeft_fit hfit (by omega : 16 ≤ i)
      simp [h16, hm]

theorem C12_group_write_witness :
    (∀ i, (_pal_lld_writegroup 0x00F0 0x000F 2 0xFFFFFFF5).testBit i
        = if ((0x000F : Nat) <<< 2).testBit i = true then ((0xFFFFFFF5 : Nat) <<< 2).testBit i
          else (0x00F0 : Nat).testBit i)
      ∧ _pal_lld_writegroup 0x00F0 0x000F 2 0xFFFFFFF5
        = _pal_lld_writegroup 0x00F0 0x000F 2 (0xFFFFFFF5 &&& 0x000F)
      ∧ uint16_cast (writegroup_set_arg 0x000F 2 0xFFFFFFF5)
          &&& uint16_cast (writegroup_clear_arg 0x000F 2 0xFFFFFFF5) = 0
      ∧ uint16_cast (writegroup_set_arg 0x000F 2 0xFFFFFFF5)
          ||| uint16_cast (writegroup_clear_arg 0x000F 2 0xFFFFFFF5) = 0x000F <<< 2 :=
  C12_group_write 0x00F0 0x000F 2 0xFFFFFFF5 (by decide) (by decide)

/-! ## Framing for an arbitrary mask, and the four branches bit by bit -/

theorem setgroupmode_frame (s : Series) (port : SN_GPIO0_Type) (mask mode p : Nat)
    (hp : p < 16) (hbit : mask.testBit p = false) :
    cfgField (_pal_lld_setgroupmode s port mask mode) p = cfgField port p
      ∧ dirBit (_pal_lld_setgroupmode s port mask mode) p = dirBit port p
      ∧ (mask.testBit (p + 16) = false →
          driveBit (_pal_lld_setgroupmode s port mask mode) p = driveBit port p) := by
  have hsub : p + 16 - 16 = p := by omega
  have h32 : p < 32 := by omega
  have h16 : ¬ 16 ≤ p := by omega
  have hd32 : p + 16 < 32 := by omega
  by_cases hi : isInputCase s mode = true
  · refine ⟨cfgField_congr ?_ ?_, ?_, ?_⟩
    · have h : 2 * p < 32 := by omega
      have hd : 2 * p / 2 = p := by omega
      rw [testBit_input_CFG port mask _ hi]
      simp [h, hd, hbit]
    · have h : 2 * p + 1 < 32 := by omega
      have hd : (2 * p + 1) / 2 = p := by omega
      rw [testBit_input_CFG port mask _ hi]
      simp [h, hd, hbit]
    · unfold dirBit
      rw [testBit_input_MODE port mask _ hi]
      simp [h32, h16, hbit]
    · intro hhi
      unfold driveBit
      rw [testBit_input_MODE port mask _ hi]
      simp [hd32, hsub, hbit, hhi]
  · by_cases ho : mode = PAL_MODE_OUTPUT_PUSHPULL
    · subst ho
      refine ⟨?_, ?_, ?_⟩
      · rw [setgroupmode_pushpull]; rfl
      · unfold dirBit
        rw [testBit_pushpull_MODE]
        simp [h32, h16, hbit]
      · intro hhi
        unfold driveBit
        rw [testBit_pushpull_MODE]
        simp [hd32, hsub, hbit, hhi]
    · by_cases h20 : PAL_MODE_OUTPUT_PUSHPULL_20MA s = some mode
      · refine ⟨?_, ?_, ?_⟩
        · rw [setgroupmode_20ma port mask h20]; rfl
        · unfold dirBit
          rw [testBit_20ma_MODE port mask _ h20]
          simp [h16, hbit]
        · intro hhi
          unfold driveBit
          rw [testBit_20ma_MODE port mask _ h20]
          simp [hsub, hbit, hhi]
      · rw [setgroupmode_default port mask (by simpa using hi) ho h20]
        exact ⟨rfl, rfl, fun _ => rfl⟩

theorem shl32_eq_shiftLeft_of_lt {x n k : Nat} (hx : x < 2 ^ k) (hk : k + n ≤ 32) :
    shl32 x n = x <<< n := by
  unfold shl32
  apply Nat.mod_eq_of_lt
  rw [Nat.shiftLeft_eq]
  calc x * 2 ^ n < 2 ^ k * 2 ^ n := Nat.mul_lt_mul_of_pos_right hx (Nat.two_pow_pos n)
    _ = 2 ^ (k + n) := (Nat.pow_add 2 k n).symm
    _ ≤ 2 ^ 32 := Nat.pow_le_pow_right (by decide) hk

/-! ## The offset wrapper -/

/-- C14 (counterexample): with mask = 0x8000 and offset = 1 the shifted group is 0x10000;
pin 0 is not part of it (bit 0 is clear), yet programming PAL_MODE_OUTPUT_PUSHPULL from
CFG = MODE = 0 leaves MODE = 0x00010000, so the drive-strength bit of pin 0 changes
from 0 to 1. -/
theorem C14_offset_wrapper_framing_counterexample :
    (0x8000 : Nat) < 2 ^ 16 ∧ 1 < PAL_IOPORTS_WIDTH ∧ 0 < PAL_IOPORTS_WIDTH
      ∧ shl32 0x8000 1 = 0x10000
      ∧ (shl32 0x8000 1).testBit 0 = false
      ∧ pal_lld_setgroupmode .SN32F24x ⟨0x00000000, 0x00000000⟩ 0x8000 1
          PAL_MODE_OUTPUT_PUSHPULL = ⟨0x00000000, 0x00010000⟩
      ∧ driveBit (pal_lld_setgroupmode .SN32F24x ⟨0x00000000, 0x00000000⟩ 0x8000 1
          PAL_MODE_OUTPUT_PUSHPULL) 0 = true
      ∧ driveBit ⟨0x00000000, 0x00000000⟩ 0 = false := by
  decide

/-- C14 (amended): for every mask that fits in 16 bits, every offset in [0, 16), every
mode and every initial register block, the wrapper programs the group mask << offset
(no bit is lost by the shift) and leaves unchanged the CFG field and the direction bit
of every pin p in [0, 16) whose bit p is not set in mask << offset; the drive-strength
bit of such a pin is unchanged as well when bit p + 16 of mask << offset is clear, in
particular whenever mask << offset fits in 16 bits. -/
theorem C14_offset_wrapper_framing (s : Series) (port : SN_GPIO0_Type)
    (mask offset mode p : Nat) (hmask : mask < 2 ^ 16) (hoff : offset < PAL_IOPORTS_WIDTH)
    (hp : p < PAL_IOPORTS_WIDTH) (hbit : (mask <<< offset).testBit p = false) :
    pal_lld_setgroupmode s port mask offset mode
        = _pal_lld_setgroupmode s port (mask <<< offset) mode
      ∧ cfgField (pal_lld_setgroupmode s port mask offset mode) p = cfgField port p
      ∧ dirBit (pal_lld_setgroupmode s port mask offset mode) p = dirBit port p
      ∧ ((mask <<< offset).testBit (p + 16) = false →
          driveBit (pal_lld_setgroupmode s port mask offset mode) p = driveBit port p)
      ∧ (mask <<< offset < 2 ^ 16 →
          driveBit (pal_lld_setgroupmode s port mask offset mode) p = driveBit port p) := by
  have hoff16 : offset < 16 := hoff
  have hsh : shl32 mask offset = mask <<< offset :=
    shl32_eq_shiftLeft_of_lt hmask (by omega)
  have hframe := setgroupmode_frame s port (mask <<< offset) mode p hp hbit
  unfold pal_lld_setgroupmode
  rw [hsh]
  refine ⟨rfl, hframe.1, hframe.2.1, hframe.2.2, ?_⟩
  intro hfit
  exact hframe.2.2 (testBit_of_lt hfit (by omega))

theorem C14_offset_wrapper_framing_witness :
    pal_lld_setgroupmode .SN32F24x ⟨0xAAAAAAAA, 0x00010001⟩ 0x0003 4 PAL_MODE_INPUT_PULLUP
        = _pal_lld_setgroupmode .SN32F24x ⟨0xAAAAAAAA, 0x00010001⟩ (0x0003 <<< 4)
            PAL_MODE_INPUT_PULLUP
      ∧ cfgField (pal_lld_setgroupmode .SN32F24x ⟨0xAAAAAAAA, 0x00010001⟩ 0x0003 4
          PAL_MODE_INPUT_PULLUP) 0 = cfgField ⟨0xAAAAAAAA, 0x00010001⟩ 0
      ∧ dirBit (pal_lld_setgroupmode .SN32F24x ⟨0xAAAAAAAA, 0x00010001⟩ 0x0003 4
          PAL_MODE_INPUT_PULLUP) 0 = dirBit ⟨0xAAAAAAAA, 0x00010001⟩ 0
      ∧ (((0x0003 : Nat) <<< 4).testBit (0 + 16) = false →
          driveBit (pal_lld_setgroupmode .SN32F24x ⟨0xAAAAAAAA, 0x00010001⟩ 0x0003 4
            PAL_MODE_INPUT_PULLUP) 0 = driveBit ⟨0xAAAAAAAA, 0x00010001⟩ 0)
      ∧ ((0x0003 : Nat) <<< 4 < 2 ^ 16 →
          driveBit (pal_lld_setgroupmode .SN32F24x ⟨0xAAAAAAAA, 0x00010001⟩ 0x0003 4
            PAL_MODE_INPUT_PULLUP) 0 = driveBit ⟨0xAAAAAAAA, 0x00010001⟩ 0) :=
  C14_offset_wrapper_framing .SN32F24x ⟨0xAAAAAAAA, 0x00010001⟩ 0x0003 4
    PAL_MODE_INPUT_PULLUP 0 (by decide) (by decide) (by decide) (by decide)

/-! ## Composition of calls -/

theorem SN_GPIO0_Type.eq_of_testBit_eq {a b : SN_GPIO0_Type}
    (hC : ∀ i, a.CFG.testBit i = b.CFG.testBit i)
    (hM : ∀ i, a.MODE.testBit i = b.MODE.testBit i) : a = b := by
  cases a
  cases b
  simp only [SN_GPIO0_Type.mk.injEq]
  exact ⟨Nat.eq_of_testBit_eq hC, Nat.eq_of_testBit_eq hM⟩

theorem setgroupmode_bits (s : Series) (mode : Nat) :
    ((∀ (port : SN_GPIO0_Type) (mask i : Nat),
          (_pal_lld_setgroupmode s port mask mode).CFG.testBit i
            = ((port.CFG.testBit i && (decide (i < 32) && !mask.testBit (i / 2)))
                || (decide (i < 32) && (mask.testBit (i / 2) && mode.testBit (i % 2)))))
        ∧ (∀ (port : SN_GPIO0_Type) (mask i : Nat),
          (_pal_lld_setgroupmode s port mask mode).MODE.testBit i
            = (port.MODE.testBit i && (decide (i < 32)
                && (!(decide (16 ≤ i) && mask.testBit (i - 16)) && !mask.testBit i)))))
      ∨ ((∀ (port : SN_GPIO0_Type) (mask i : Nat),
          (_pal_lld_setgroupmode s port mask mode).CFG.testBit i = port.CFG.testBit i)
        ∧ (∀ (port : SN_GPIO0_Type) (mask i : Nat),
          (_pal_lld_setgroupmode s port mask mode).MODE.testBit i
            = ((port.MODE.testBit i && (decide (i < 32)
                && !(decide (16 ≤ i) && mask.testBit (i - 16)))) || mask.testBit i)))
      ∨ ((∀ (port : SN_GPIO0_Type) (mask i : Nat),
          (_pal_lld_setgroupmode s port mask mode).CFG.testBit i = port.CFG.testBit i)
        ∧ (∀ (port : SN_GPIO0_Type) (mask i : Nat),
          (_pal_lld_setgroupmode s port mask mode).MODE.testBit i
            = ((port.MODE.testBit i || (decide (i < 32)
                && (decide (16 ≤ i) && mask.testBit (i - 16)))) || mask.testBit i)))
      ∨ ((∀ (port : SN_GPIO0_Type) (mask i : Nat),
          (_pal_lld_setgroupmode s port mask mode).CFG.testBit i = port.CFG.testBit i)
        ∧ (∀ (port : SN_GPIO0_Type) (mask i : Nat),
          (_pal_lld_setgroupmode s port mask mode).MODE.testBit i = port.MODE.testBit i)) := by
  by_cases hi : isInputCase s mode = true
  · exact Or.inl ⟨fun port mask i => testBit_input_CFG port mask i hi,
      fun port mask i => testBit_input_MODE port mask i hi⟩
  · by_cases ho : mode = PAL_MODE_OUTPUT_PUSHPULL
    · subst ho
      refine Or.inr (Or.inl ⟨fun port mask i => ?_, fun port mask i =>
        testBit_pushpull_MODE s port mask i⟩)
      rw [setgroupmode_pushpull]
    · by_cases h20 : PAL_MODE_OUTPUT_PUSHPULL_20MA s = some mode
      · refine Or.inr (Or.inr (Or.inl ⟨fun port mask i => ?_, fun port mask i =>
          testBit_20ma_MODE port mask i h20⟩))
        rw [setgroupmode_20ma port mask h20]
      · have hd := fun port mask =>
          @setgroupmode_default s mode port mask (by simpa using hi) ho h20
        exact Or.inr (Or.inr (Or.inr ⟨fun port mask i => by rw [hd],
          fun port mask i => by rw [hd]⟩))

theorem testBit_hi_of_lt16 {m i : Nat} (hm : m < 2 ^ 16) :
    (decide (16 ≤ i) && m.testBit i) = false := by
  by_cases h : 16 ≤ i
  · simp [testBit_of_lt hm h]
  · simp [h]

theorem lt32_or_ge16 (i : Nat) : (decide (i < 32) || decide (16 ≤ i)) = true := by
  by_cases h : 16 ≤ i
  · simp [h]
  · have : i < 32 := by omega
    simp [this]

/-- C15: mask-union homomorphism.  For every build, every mode value, all masks m1 and m2
that fit in 16 bits and every initial register block, programming m1 and then m2 with
the same mode leaves exactly the CFG and MODE of one call with the mask m1 | m2. -/
theorem C15_mask_union (s : Series) (port : SN_GPIO0_Type) (m1 m2 mode : Nat)
    (h1 : m1 < 2 ^ 16) (h2 : m2 < 2 ^ 16) :
    _pal_lld_setgroupmode s (_pal_lld_setgroupmode s port m1 mode) m2 mode
      = _pal_lld_setgroupmode s port (m1 ||| m2) mode := by
  obtain ⟨hC, hM⟩ | ⟨hC, hM⟩ | ⟨hC, hM⟩ | ⟨hC, hM⟩ := setgroupmode_bits s mode <;>
  · apply SN_GPIO0_Type.eq_of_testBit_eq
    · intro i
      simp only [hC, Nat.testBit_or] <;>
        (cases port.CFG.testBit i <;> cases m1.testBit (i / 2) <;>
          cases m2.testBit (i / 2) <;> cases mode.testBit (i % 2) <;>
          cases decide (i < 32) <;> rfl)
    · intro i
      have e1 := testBit_hi_of_lt16 (i := i) h1
      have e2 := testBit_hi_of_lt16 (i := i) h2
      have e3 := lt32_or_ge16 i
      simp only [hM, Nat.testBit_or] <;>
        (revert e1 e2 e3
         cases port.MODE.testBit i <;> cases m1.testBit i <;> cases m2.testBit i <;>
          cases m1.testBit (i - 16) <;> cases m2.testBit (i - 16) <;>
          cases decide (i < 32) <;> cases decide (16 ≤ i) <;> simp)

theorem C15_mask_union_witness :
    _pal_lld_setgroupmode .SN32F26x
        (_pal_lld_setgroupmode .SN32F26x ⟨0x12345678, 0x0F0F0F0F⟩ 0x00F0 PAL_MODE_OUTPUT_PUSHPULL)
        0x0F00 PAL_MODE_OUTPUT_PUSHPULL
      = _pal_lld_setgroupmode .SN32F26x ⟨0x12345678, 0x0F0F0F0F⟩ (0x00F0 ||| 0x0F00)
          PAL_MODE_OUTPUT_PUSHPULL :=
  C15_mask_union .SN32F26x ⟨0x12345678, 0x0F0F0F0F⟩ 0x00F0 0x0F00 PAL_MODE_OUTPUT_PUSHPULL
    (by decide) (by decide)

theorem testBit_disjoint {m1 m2 : Nat} (h : m1 &&& m2 = 0) (j : Nat) :
    (m1.testBit j && m2.testBit j) = false := by
  rw [← Nat.testBit_and, h, Nat.zero_testBit]

/-- C16: independence of disjoint groups.  For every build, all masks m1 and m2 that fit
in 16 bits and share no bit, all mode values a and b and every initial register block,
programming (m1, a) and then (m2, b) leaves exactly the CFG and MODE of programming
(m2, b) and then (m1, a). -/
theorem C16_disjoint_groups_commute (s : Series) (port : SN_GPIO0_Type) (m1 m2 a b : Nat)
    (h1 : m1 < 2 ^ 16) (h2 : m2 < 2 ^ 16) (hdis : m1 &&& m2 = 0) :
    _pal_lld_setgroupmode s (_pal_lld_setgroupmode s port m1 a) m2 b
      = _pal_lld_setgroupmode s (_pal_lld_setgroupmode s port m2 b) m1 a := by
  obtain ⟨hCa, hMa⟩ | ⟨hCa, hMa⟩ | ⟨hCa, hMa⟩ | ⟨hCa, hMa⟩ := setgroupmode_bits s a <;>
  obtain ⟨hCb, hMb⟩ | ⟨hCb, hMb⟩ | ⟨hCb, hMb⟩ | ⟨hCb, hMb⟩ := setgroupmode_bits s b <;>
  · apply SN_GPIO0_Type.eq_of_testBit_eq
    · intro i
      have d := testBit_disjoint hdis (i / 2)
      simp only [hCa, hCb] <;>
        (revert d
         cases port.CFG.testBit i <;> cases m1.testBit (i / 2) <;>
          cases m2.testBit (i / 2) <;> cases a.testBit (i % 2) <;>
          cases b.testBit (i % 2) <;> cases decide (i < 32) <;> simp)
    · intro i
      have e1 := testBit_hi_of_lt16 (i := i) h1
      have e2 := testBit_hi_of_lt16 (i := i) h2
      have e3 := lt32_or_ge16 i
      have d0 := testBit_disjoint hdis i
      have d16 := testBit_disjoint hdis (i - 16)
      simp only [hMa, hMb] <;>
        (revert e1 e2 e3 d0 d16
         cases port.MODE.testBit i <;> cases m1.testBit i <;> cases m2.testBit i <;>
          cases m1.testBit (i - 16) <;> cases m2.testBit (i - 16) <;>
          cases decide (i < 32) <;> cases decide (16 ≤ i) <;> simp)

theorem C16_disjoint_groups_commute_witness :
    _pal_lld_setgroupmode .SN32F24x
        (_pal_lld_setgroupmode .SN32F24x ⟨0xFFFFFFFF, 0x00FF00FF⟩ 0x000F PAL_MODE_INPUT)
        0x00F0 0x20
      = _pal_lld_setgroupmode .SN32F24x
        (_pal_lld_setgroupmode .SN32F24x ⟨0xFFFFFFFF, 0x00FF00FF⟩ 0x00F0 0x20)
        0x000F PAL_MODE_INPUT :=
  C16_disjoint_groups_commute .SN32F24x ⟨0xFFFFFFFF, 0x00FF00FF⟩ 0x000F 0x00F0
    PAL_MODE_INPUT 0x20 (by decide) (by decide) (by decide)

theorem definedModes_cases {s : Series} {b : Nat} (hb : b ∈ definedModes s) :
    isInputCase s b = true ∨ b = PAL_MODE_OUTPUT_PUSHPULL
      ∨ PAL_MODE_OUTPUT_PUSHPULL_20MA s = some b := by
  cases s <;>
    simp [definedModes, inputModes, isInputCase, PAL_MODE_INPUT, PAL_MODE_INPUT_PULLDOWN,
      PAL_MODE_UNCONNECTED, PAL_MODE_INPUT_REPEATER, PAL_MODE_INPUT_PULLUP, PAL_MODE_RESET,
      PAL_MODE_OUTPUT_PUSHPULL, PAL_MODE_OUTPUT_PUSHPULL_20MA] at hb ⊢ <;> omega

theorem testBit_imp_lt32 {x : Nat} (hx : x < 2 ^ 32) (i : Nat) :
    (x.testBit i && !decide (i < 32)) = false := by
  by_cases h : i < 32
  · simp [h]
  · simp [testBit_of_lt hx (by omega : 32 ≤ i)]

/-- C17: last mode wins.  For every build, every mask (16-bit masks included), every mode
value a, every mode b defined for the build and every initial register block with a
32-bit MODE register, MODE after programming the mask with a and then with b equals
MODE after programming it with b alone; and when b is an input-family mode the CFG
register is equal as well. -/
theorem C17_last_mode_wins (s : Series) (port : SN_GPIO0_Type) (mask a b : Nat)
    (hb : b ∈ definedModes s) (hMODE : port.MODE < 2 ^ 32) :
    (_pal_lld_setgroupmode s (_pal_lld_setgroupmode s port mask a) mask b).MODE
        = (_pal_lld_setgroupmode s port mask b).MODE
      ∧ (b ∈ inputModes s →
          (_pal_lld_setgroupmode s (_pal_lld_setgroupmode s port mask a) mask b).CFG
            = (_pal_lld_setgroupmode s port mask b).CFG) := by
  constructor
  · apply Nat.eq_of_testBit_eq
    intro i
    have e := testBit_imp_lt32 hMODE i
    obtain ⟨-, hMa⟩ | ⟨-, hMa⟩ | ⟨-, hMa⟩ | ⟨-, hMa⟩ := setgroupmode_bits s a <;>
    rcases definedModes_cases hb with hi | ho | h20
    all_goals first
      | (rw [testBit_input_MODE _ mask i hi, testBit_input_MODE port mask i hi])
      | (subst ho; rw [testBit_pushpull_MODE, testBit_pushpull_MODE])
      | (rw [testBit_20ma_MODE _ mask i h20, testBit_20ma_MODE port mask i h20])
    all_goals
      simp only [hMa] <;>
        (revert e
         cases port.MODE.testBit i <;> cases mask.testBit i <;>
          cases mask.testBit (i - 16) <;> cases decide (i < 32) <;>
          cases decide (16 ≤ i) <;> simp)
  · intro hin
    have hi : isInputCase s b = true := (isInputCase_iff_mem s b).2 hin
    apply Nat.eq_of_testBit_eq
    intro i
    rw [testBit_input_CFG _ mask i hi, testBit_input_CFG port mask i hi]
    obtain ⟨hCa, -⟩ | ⟨hCa, -⟩ | ⟨hCa, -⟩ | ⟨hCa, -⟩ := setgroupmode_bits s a
    all_goals first
      | (simp only [hCa]; done)
      | (simp only [hCa]
         cases port.CFG.testBit i <;> cases mask.testBit (i / 2) <;>
          cases a.testBit (i % 2) <;> cases b.testBit (i % 2) <;>
          cases decide (i < 32) <;> rfl)

theorem C17_last_mode_wins_witness :
    (_pal_lld_setgroupmode .SN32F24x
          (_pal_lld_setgroupmode .SN32F24x ⟨0x55555555, 0xFFFF0000⟩ 0x00FF 0x20)
          0x00FF PAL_MODE_INPUT).MODE
        = (_pal_lld_setgroupmode .SN32F24x ⟨0x55555555, 0xFFFF0000⟩ 0x00FF PAL_MODE_INPUT).MODE
      ∧ (PAL_MODE_INPUT ∈ inputModes .SN32F24x →
          (_pal_lld_setgroupmode .SN32F24x
              (_pal_lld_setgroupmode .SN32F24x ⟨0x55555555, 0xFFFF0000⟩ 0x00FF 0x20)
              0x00FF PAL_MODE_INPUT).CFG
            = (_pal_lld_setgroupmode .SN32F24x ⟨0x55555555, 0xFFFF0000⟩ 0x00FF
                PAL_MODE_INPUT).CFG) :=
  C17_last_mode_wins .SN32F24x ⟨0x55555555, 0xFFFF0000⟩ 0x00FF 0x20 PAL_MODE_INPUT
    (by decide) (by decide)

end SN32PAL
